import Mathlib

/-!
Verification development for the opposition-evidence pipeline implemented in
`opposition_analyzer.py`.  The pipeline's externally-effectful operations
(generative-model calls, the search-proxy HTTP request, the two content
extractors, file writes) are modelled as explicit "world" inputs: each model
function takes the outcome the external service would have produced and
computes the value the Python code computes from it.  Python exceptions raised
by external calls are represented by `Except.error` / explicit failure
constructors; internal pure computation (string slicing, JSON-text extraction,
list building) is embedded directly.  `json.loads` followed by pydantic
validation is modelled by an executable recursive-descent JSON reader
(`jsonLoads`) together with per-model validators; Python string primitives
(`find`, `rfind`, slicing, `strip`, `replace`, `in`) are embedded as
executable functions on `List Char` with Python semantics.
-/

set_option maxHeartbeats 2000000
set_option maxRecDepth 100000
set_option linter.unusedVariables false

namespace OA

instance {α β : Type} [DecidableEq α] [DecidableEq β] : DecidableEq (Except α β) :=
  fun x y =>
    match x, y with
    | Except.ok a, Except.ok b =>
      if h : a = b then Decidable.isTrue (by rw [h]) else Decidable.isFalse (by simp [h])
    | Except.error a, Except.error b =>
      if h : a = b then Decidable.isTrue (by rw [h]) else Decidable.isFalse (by simp [h])
    | Except.ok _, Except.error _ => Decidable.isFalse (by simp)
    | Except.error _, Except.ok _ => Decidable.isFalse (by simp)

/-- Whitespace characters of the JSON grammar (as accepted by `json.loads`). -/
def isJsonWs (c : Char) : Bool := c = ' ' || c = '\t' || c = '\n' || c = '\r'

/-- ASCII fragment of the whitespace set stripped by Python `str.strip()`. -/
def isPyWs (c : Char) : Bool :=
  c = ' ' || c = '\t' || c = '\n' || c = '\r' || c = '\x0b' || c = '\x0c'

/-- Drop leading JSON whitespace. -/
def skipWs : List Char → List Char
  | [] => []
  | c :: rest => if isJsonWs c then skipWs rest else c :: rest

/-- Python `str.strip()` on a character list. -/
def pyStripL (s : List Char) : List Char :=
  ((s.dropWhile isPyWs).reverse.dropWhile isPyWs).reverse

/-- Python `str.strip()`. -/
def pyStrip (s : String) : String := ⟨pyStripL s.data⟩

/-- `startsWith s pat` holds when `pat` occurs at the very start of `s`. -/
def startsWith : List Char → List Char → Bool
  | _, [] => true
  | [], _ :: _ => false
  | c :: s, p :: ps => c = p && startsWith s ps

/-- Index of the first occurrence of `pat` in `s` (Python `str.find` when it
succeeds). -/
def findSub : List Char → List Char → Option Nat
  | [], pat => if startsWith [] pat then some 0 else none
  | c :: rest, pat =>
    if startsWith (c :: rest) pat then some 0 else (findSub rest pat).map (· + 1)

/-- Index of the last occurrence of `pat` in `s` (Python `str.rfind` when it
succeeds). -/
def rfindSub : List Char → List Char → Option Nat
  | [], pat => if startsWith [] pat then some 0 else none
  | c :: rest, pat =>
    match rfindSub rest pat with
    | some i => some (i + 1)
    | none => if startsWith (c :: rest) pat then some 0 else none

/-- Python `pat in s` substring test. -/
def containsSub (s pat : List Char) : Bool := (findSub s pat).isSome

/-- Python `pat in s` on `String`. -/
def strContains (s pat : String) : Bool := containsSub s.data pat.data

/-- Python `s.find(pat)`: first index, `-1` when absent. -/
def pyFind (s pat : List Char) : Int :=
  match findSub s pat with
  | some i => (i : Int)
  | none => -1

/-- Python `s.find(pat, start)`. -/
def pyFindFrom (s pat : List Char) (start : Nat) : Int :=
  match findSub (s.drop start) pat with
  | some i => ((start + i : Nat) : Int)
  | none => -1

/-- Python `s.rfind(pat)`: last index, `-1` when absent. -/
def pyRfind (s pat : List Char) : Int :=
  match rfindSub s pat with
  | some i => (i : Int)
  | none => -1

/-- Normalize a Python slice endpoint against length `n` (negative indices
count from the end; out-of-range values clamp). -/
def sliceNorm (n : Nat) (x : Int) : Nat :=
  min (if x < 0 then x + n else x).toNat n

/-- Python `s[a:b]`. -/
def pySlice (s : List Char) (a b : Int) : List Char :=
  (s.take (sliceNorm s.length b)).drop (sliceNorm s.length a)

/-- Python `s.lower()` (ASCII-adequate embedding). -/
def pyLower (s : String) : String := ⟨s.data.map Char.toLower⟩

/-- Fuelled worker for Python `str.replace`: replace every non-overlapping
occurrence of `pat`, scanning left to right. -/
def replaceFuel : Nat → List Char → List Char → List Char → List Char
  | 0, s, _, _ => s
  | _ + 1, [], _, _ => []
  | f + 1, c :: rest, pat, rep =>
    if startsWith (c :: rest) pat then
      rep ++ replaceFuel f (rest.drop (pat.length - 1)) pat rep
    else c :: replaceFuel f rest pat rep

/-- Python `s.replace(pat, rep)` (for non-empty `pat`). -/
def pyReplace (s pat rep : String) : String :=
  ⟨replaceFuel (s.data.length + 1) s.data pat.data rep.data⟩

/-! ## JSON reading (model of `json.loads`) -/

/-- JSON values as produced by `json.loads` (numbers read exactly as
rationals). -/
inductive JsonVal where
  | null
  | bool (b : Bool)
  | num (q : Rat)
  | str (s : String)
  | arr (elems : List JsonVal)
  | obj (members : List (String × JsonVal))

/-- Value of a hexadecimal digit. -/
def hexVal (c : Char) : Option Nat :=
  if '0' ≤ c ∧ c ≤ '9' then some (c.toNat - 48)
  else if 'a' ≤ c ∧ c ≤ 'f' then some (c.toNat - 87)
  else if 'A' ≤ c ∧ c ≤ 'F' then some (c.toNat - 55)
  else none

/-- Single-character JSON string escapes. -/
def escChar (c : Char) : Option Char :=
  if c = '"' then some '"'
  else if c = '\\' then some '\\'
  else if c = '/' then some '/'
  else if c = 'b' then some '\x08'
  else if c = 'f' then some '\x0c'
  else if c = 'n' then some '\n'
  else if c = 'r' then some '\r'
  else if c = 't' then some '\t'
  else none

/-- Read the body of a JSON string after the opening quote; returns the
decoded characters and the input remaining after the closing quote. -/
def parseStringBody : List Char → Option (List Char × List Char)
  | [] => none
  | c :: rest =>
    if c = '"' then some ([], rest)
    else if c = '\\' then
      match rest with
      | [] => none
      | e :: rest2 =>
        if e = 'u' then
          match rest2 with
          | h1 :: h2 :: h3 :: h4 :: rest3 =>
            match hexVal h1, hexVal h2, hexVal h3, hexVal h4 with
            | some a, some b, some c3, some d =>
              (parseStringBody rest3).map
                (fun p => (Char.ofNat (((a * 16 + b) * 16 + c3) * 16 + d) :: p.1, p.2))
            | _, _, _, _ => none
          | _ => none
        else
          match escChar e with
          | some d => (parseStringBody rest2).map (fun p => (d :: p.1, p.2))
          | none => none
    else if c.toNat < 32 then none
    else (parseStringBody rest).map (fun p => (c :: p.1, p.2))

/-- Digits to a natural number, most significant first. -/
def digitsToNat : List Char → Nat → Nat
  | [], acc => acc
  | c :: rest, acc => digitsToNat rest (acc * 10 + (c.toNat - 48))

/-- Read an optional exponent part of a JSON number. -/
def applyExp (q : Rat) (s : List Char) : Option (Rat × List Char) :=
  let doExp : List Char → Option (Rat × List Char) := fun r =>
    let p := match r with
      | '-' :: rr => (true, rr)
      | '+' :: rr => (false, rr)
      | _ => (false, r)
    let ds := p.2.takeWhile Char.isDigit
    let r2 := p.2.dropWhile Char.isDigit
    if ds.isEmpty then none
    else
      let k := digitsToNat ds 0
      some ((if p.1 then q / ((10 : Rat) ^ k) else q * ((10 : Rat) ^ k)), r2)
  match s with
  | 'e' :: r => doExp r
  | 'E' :: r => doExp r
  | _ => some (q, s)

/-- Read a JSON number (sign, integer part without leading zeros, optional
fraction, optional exponent). -/
def parseNumber (s : List Char) : Option (Rat × List Char) :=
  let p := match s with
    | '-' :: rest => (true, rest)
    | _ => (false, s)
  let ds := p.2.takeWhile Char.isDigit
  let rest1 := p.2.dropWhile Char.isDigit
  if ds.isEmpty then none
  else if ds.length > 1 && ds.head? = some '0' then none
  else
    let intPart : Rat := (digitsToNat ds 0 : Nat)
    match rest1 with
    | '.' :: r2 =>
      let fs := r2.takeWhile Char.isDigit
      let r3 := r2.dropWhile Char.isDigit
      if fs.isEmpty then none
      else
        let q : Rat := intPart + (digitsToNat fs 0 : Rat) / ((10 : Rat) ^ fs.length)
        applyExp (if p.1 then -q else q) r3
    | _ => applyExp (if p.1 then -intPart else intPart) rest1

/-- Parsing mode: a plain value, the member list of an object, or the element
list of an array. -/
inductive ParseMode where
  | value
  | members (acc : List (String × JsonVal))
  | items (acc : List JsonVal)

/-- Continuation after one object member's value has been read: a comma
continues the member loop, a closing brace finishes the object. -/
def afterValue (acc : List (String × JsonVal)) (k : String)
    (loop : List (String × JsonVal) → List Char → Option (JsonVal × List Char)) :
    Option (JsonVal × List Char) → Option (JsonVal × List Char)
  | none => none
  | some (v, r3) =>
    match skipWs r3 with
    | ',' :: r4 => loop (acc ++ [(k, v)]) r4
    | '\x7d' :: r4 => some (JsonVal.obj (acc ++ [(k, v)]), r4)
    | _ => none

/-- Continuation after one object member's key string has been read: expects
a colon, then reads the member's value. -/
def afterKey (acc : List (String × JsonVal))
    (valueP : List Char → Option (JsonVal × List Char))
    (loop : List (String × JsonVal) → List Char → Option (JsonVal × List Char)) :
    Option (List Char × List Char) → Option (JsonVal × List Char)
  | none => none
  | some (k, r1) =>
    match skipWs r1 with
    | ':' :: r2 => afterValue acc ⟨k⟩ loop (valueP r2)
    | _ => none

/-- Fuelled recursive-descent JSON reader. -/
def parseJ : Nat → ParseMode → List Char → Option (JsonVal × List Char)
  | 0, _, _ => none
  | fuel + 1, ParseMode.value, s =>
    match skipWs s with
    | [] => none
    | c :: rest =>
      if c = '"' then (parseStringBody rest).map (fun p => (JsonVal.str ⟨p.1⟩, p.2))
      else if c = '\x7b' then
        match skipWs rest with
        | '\x7d' :: r2 => some (JsonVal.obj [], r2)
        | r2 => parseJ fuel (ParseMode.members []) r2
      else if c = '[' then
        match skipWs rest with
        | ']' :: r2 => some (JsonVal.arr [], r2)
        | r2 => parseJ fuel (ParseMode.items []) r2
      else if startsWith (c :: rest) "true".data then
        some (JsonVal.bool true, (c :: rest).drop 4)
      else if startsWith (c :: rest) "false".data then
        some (JsonVal.bool false, (c :: rest).drop 5)
      else if startsWith (c :: rest) "null".data then
        some (JsonVal.null, (c :: rest).drop 4)
      else (parseNumber (c :: rest)).map (fun p => (JsonVal.num p.1, p.2))
  | fuel + 1, ParseMode.members acc, s =>
    match skipWs s with
    | '"' :: rest =>
      afterKey acc (parseJ fuel ParseMode.value)
        (fun acc2 r => parseJ fuel (ParseMode.members acc2) r)
        (parseStringBody rest)
    | _ => none
  | fuel + 1, ParseMode.items acc, s =>
    match parseJ fuel ParseMode.value s with
    | none => none
    | some (v, r1) =>
      match skipWs r1 with
      | ',' :: r2 => parseJ fuel (ParseMode.items (acc ++ [v])) r2
      | ']' :: r2 => some (JsonVal.arr (acc ++ [v]), r2)
      | _ => none

/-- Model of `json.loads`: read one JSON document, requiring the remaining
input to be whitespace. -/
def jsonLoads (s : String) : Except String JsonVal :=
  match parseJ (s.data.length + 1) ParseMode.value s.data with
  | none => Except.error "Invalid JSON"
  | some (v, rest) =>
    if (skipWs rest).isEmpty then Except.ok v else Except.error "Extra data"

/-- Python-dict key lookup built from a member list: a later duplicate key
overwrites an earlier one, as in `json.loads`. -/
def lookupLast (kvs : List (String × JsonVal)) (k : String) : Option JsonVal :=
  kvs.foldl (fun acc kv => if kv.1 = k then some kv.2 else acc) none

/-- All-strings view of a JSON array (pydantic `List[str]`). -/
def asStrList : List JsonVal → Option (List String)
  | [] => some []
  | JsonVal.str s :: rest => (asStrList rest).map (s :: ·)
  | _ :: _ => none

/-! ## Data model (the pydantic models of `opposition_analyzer.py`) -/

/-- `SearchQueries`: the bilingual query pair. -/
structure SearchQueries where
  english_query : String
  bangla_query : String
deriving DecidableEq

/-- `SearchResult`: one organic search hit. -/
structure SearchResult where
  title : String
  link : String
  description : String
  position : Nat
deriving DecidableEq

/-- `SearchResults`: the per-query result collection. -/
structure SearchResults where
  organic_results : List SearchResult
  total_results : Nat
  search_query : String
  language : String
deriving DecidableEq

/-- `ContentExtraction`: per-URL extraction artifact. -/
structure ContentExtraction where
  url : String
  title : String
  content : String
  extraction_success : Bool
  error_message : Option String
deriving DecidableEq

/-- `OppositionAnalysis`: the analyzer's verdict (`confidence_score` embedded
as a rational). -/
structure OppositionAnalysis where
  has_opposition_evidence : Bool
  opposition_types : List String
  summary : String
  confidence_score : Rat
  sources : List String
deriving DecidableEq

/-- The project-record dict: each `.get(key, default)` field, `none` when the
key is absent. -/
structure ProjectData where
  project_id : Option String
  project_name : Option String
  location : Option String
  capacity : Option String
  agency : Option String
  present_status : Option String
deriving DecidableEq

/-- pydantic validation of `SearchQueries(**data)`: both fields must be
present and strings. -/
def validateQueries : JsonVal → Except String SearchQueries
  | JsonVal.obj kvs =>
    match lookupLast kvs "english_query", lookupLast kvs "bangla_query" with
    | some (JsonVal.str e), some (JsonVal.str b) => Except.ok ⟨e, b⟩
    | _, _ => Except.error "validation error for SearchQueries"
  | _ => Except.error "validation error for SearchQueries"

/-- pydantic validation of `OppositionAnalysis(**data)`. -/
def validateAnalysis : JsonVal → Except String OppositionAnalysis
  | JsonVal.obj kvs =>
    match lookupLast kvs "has_opposition_evidence", lookupLast kvs "opposition_types",
        lookupLast kvs "summary", lookupLast kvs "confidence_score",
        lookupLast kvs "sources" with
    | some (JsonVal.bool h), some (JsonVal.arr ts), some (JsonVal.str sm),
        some (JsonVal.num cs), some (JsonVal.arr srcs) =>
      match asStrList ts, asStrList srcs with
      | some ts2, some srcs2 => Except.ok ⟨h, ts2, sm, cs, srcs2⟩
      | _, _ => Except.error "validation error for OppositionAnalysis"
    | _, _, _, _, _ => Except.error "validation error for OppositionAnalysis"
  | _ => Except.error "validation error for OppositionAnalysis"

/-! ## Model-reply JSON-text extraction (lines 127-140 and 427-438) -/

/-- The three-tier JSON-text extraction both Gemini-reply consumers perform:
a ```json fenced block wins, else the substring from the first brace to the
last brace, else the caller's deterministic fallback text. -/
def extractJson (response_text fallback : String) : String :=
  if strContains response_text "```json" then
    pyStrip ⟨pySlice response_text.data
      (pyFind response_text.data "```json".data + 7)
      (pyFindFrom response_text.data "```".data
        (pyFind response_text.data "```json".data + 7).toNat)⟩
  else if strContains response_text "\x7b" && strContains response_text "\x7d" then
    ⟨pySlice response_text.data (pyFind response_text.data "\x7b".data)
      (pyRfind response_text.data "\x7d".data + 1)⟩
  else fallback

/-! ## `generate_search_queries` (lines 91-158) -/

/-- The JSON text the no-JSON fallback branch builds by string concatenation
(line 140). -/
def builtFallbackJson (project_name location : String) : String :=
  "\x7b\"english_query\": \"" ++ project_name ++ " " ++ location ++
    " conflict\", \"bangla_query\": \"" ++ project_name ++ " " ++ location ++
    " সংঘাত\"\x7d"

/-- The deterministic fallback pair built in the exception handler
(lines 155-158). -/
def fallbackQueries (project_name location : String) : SearchQueries :=
  ⟨project_name ++ " " ++ location ++ " conflict",
   project_name ++ " " ++ location ++ " সংঘাত"⟩

/-- `json.loads` followed by `SearchQueries(**queries_data)`. -/
def parseQueriesText (json_text : String) : Except String SearchQueries :=
  (jsonLoads json_text).bind validateQueries

/-- `generate_search_queries`, with the Gemini call's outcome supplied as a
world input: `Except.error` represents an exception raised by the call. -/
def generate_search_queries (project_data : ProjectData)
    (modelReply : Except String String) : SearchQueries :=
  let project_name := project_data.project_name.getD "Unknown"
  let location := project_data.location.getD "Unknown"
  match modelReply with
  | Except.error _ => fallbackQueries project_name location
  | Except.ok raw =>
    let response_text := pyStrip raw
    let json_text := extractJson response_text (builtFallbackJson project_name location)
    match parseQueriesText json_text with
    | Except.ok q => q
    | Except.error _ => fallbackQueries project_name location

/-! ## `search_with_brightdata` (lines 160-275) -/

/-- Observables of one `div.tF2Cxc` result block relevant to the extraction
heuristics: the first anchor with an href (with its optional `h3` text and its
own text, both already whitespace-stripped by `get_text(strip=True)`), the
stripped texts of all `span` descendants in document order, and the block's
full stripped text. -/
structure Anchor where
  href : String
  h3Text : Option String
  text : String
deriving DecidableEq

/-- One candidate search-result block. -/
structure ResultBlock where
  mainLink : Option Anchor
  spans : List String
  allText : String
deriving DecidableEq

/-- Outcome of the Brightdata HTTP round trip: an exception anywhere in the
`try` (request or parsing), or a response with a status code and payload. -/
inductive SearchPayload where
  | invalidJson (msg : String)
  | jsonNoBody
  | jsonBody (blocks : List ResultBlock)
deriving DecidableEq

/-- The response world: an exception during the request/parsing, or an HTTP
response whose body either fails `response.json()`, lacks a string `body`
key, or parses into a list of candidate result blocks. -/
inductive SearchResponse where
  | exn (msg : String)
  | http (status : Nat) (payload : SearchPayload)
deriving DecidableEq

/-- Navigation-chrome words excluded when picking a description span. -/
def navWords : List String := ["web", "images", "videos", "news", "shopping"]

/-- The span filter: longer than 20 characters and free of navigation
words (line 225). -/
def goodSpan (s : String) : Bool :=
  s.length > 20 && !(navWords.any (fun w => strContains (pyLower s) w))

/-- Description selection for one block (lines 221-243): first qualifying
span, else the block text with the title removed, then UI-boilerplate
stripping. -/
def blockDescription (title : String) (b : ResultBlock) : String :=
  let description :=
    match b.spans.find? goodSpan with
    | some s => s
    | none =>
      if title ≠ "" && strContains b.allText title then
        pyStrip (pyReplace b.allText title "")
      else b.allText
  if description ≠ "" then
    pyStrip (pyReplace (pyReplace description "Press/to jump to the search box" "")
      "Accessibility help" "")
  else description

/-- Title extraction for one block (lines 209-218): the anchor's `h3` text
when present, else the anchor's own text; empty when the block has no
anchor. -/
def blockTitle (b : ResultBlock) : String :=
  match b.mainLink with
  | none => ""
  | some a => match a.h3Text with | some h => h | none => a.text

/-- Link extraction for one block: the anchor's `href`; empty when the block
has no anchor. -/
def blockLink (b : ResultBlock) : String :=
  match b.mainLink with
  | none => ""
  | some a => a.href

/-- Parse one candidate block at enumeration index `i` (0-based); `none` when
the block is discarded for lacking both title and link (line 245). -/
def blockToResult (i : Nat) (b : ResultBlock) : Option SearchResult :=
  if blockTitle b ≠ "" || blockLink b ≠ "" then
    some ⟨blockTitle b, blockLink b, blockDescription (blockTitle b) b, i + 1⟩
  else none

/-- The enumeration loop over candidate blocks (lines 203-252). -/
def parseBlocks : Nat → List ResultBlock → List SearchResult
  | _, [] => []
  | i, b :: rest =>
    match blockToResult i b with
    | some r => r :: parseBlocks (i + 1) rest
    | none => parseBlocks (i + 1) rest

/-- The empty result set returned on every failure path. -/
def emptyResults (query language : String) : SearchResults := ⟨[], 0, query, language⟩

/-- `search_with_brightdata`, with the HTTP outcome supplied as a world
input. -/
def search_with_brightdata (query language : String) (response : SearchResponse) :
    SearchResults :=
  match response with
  | SearchResponse.exn _ => emptyResults query language
  | SearchResponse.http status payload =>
    if status = 200 then
      match payload with
      | SearchPayload.invalidJson _ => emptyResults query language
      | SearchPayload.jsonNoBody => ⟨[], 0, query, language⟩
      | SearchPayload.jsonBody blocks =>
        let organic := parseBlocks 0 (blocks.take 10)
        ⟨organic, organic.length, query, language⟩
    else emptyResults query language

/-! ## `extract_content_from_urls` (lines 277-357) -/

/-- Outcome of the primary `r.jina.ai` request for one URL. -/
inductive JinaOutcome where
  | ok (body : String)
  | badStatus (code : Nat)
  | exn (msg : String)
deriving DecidableEq

/-- Per-URL world: the primary request's outcome, the fallback
`unstructured.partition` outcome (the `.text` of each element on success, an
exception message on failure), and whether the `.md` file write succeeds. -/
structure UrlWorld where
  jina : JinaOutcome
  partitionElems : Except String (List String)
  writeOk : Bool
deriving DecidableEq

/-- The body of the primary response when it succeeded with HTTP 200. -/
def jinaBody : JinaOutcome → Option String
  | JinaOutcome.ok body => some body
  | _ => none

/-- The raw `content` variable for one URL: the primary body on primary
success, else the joined non-empty element texts of the fallback extractor;
`Except.error` when both paths fail (the fallback's exception escapes to the
per-URL handler). -/
def rawContent (w : UrlWorld) : Except String String :=
  match w.jina with
  | JinaOutcome.ok body => Except.ok body
  | _ =>
    match w.partitionElems with
    | Except.ok texts => Except.ok (String.intercalate "\n" (texts.filter (fun t => t ≠ "")))
    | Except.error m => Except.error m

/-- Truncation to the 15000-character budget (lines 321-322). -/
def truncateContent (cleaned : String) : String :=
  if cleaned.length > 15000 then cleaned.take 15000 ++ "... [Content truncated]"
  else cleaned

/-- The `.md` artifact path `content/<project_id>_<i+1>.md` for the URL at
enumeration index `i`. -/
def mdPath (project_id : String) (i : Nat) : String :=
  "content/" ++ project_id ++ "_" ++ toString (i + 1) ++ ".md"

/-- Process one URL: produce its artifact and the list of file writes it
performs (`gbp` models the library function `group_broken_paragraphs`). -/
def extractOne (gbp : String → String) (project_id : String) (i : Nat)
    (result : SearchResult) (w : UrlWorld) :
    ContentExtraction × List (String × String) :=
  match rawContent w with
  | Except.error m => (⟨result.link, result.title, "", false, some m⟩, [])
  | Except.ok content =>
    let cleaned := truncateContent (gbp content)
    let writes := if w.writeOk then [(mdPath project_id i, content)] else []
    (⟨result.link, result.title, cleaned, true, none⟩, writes)

/-- The per-URL loop, accumulating artifacts and file writes in order. -/
def extractLoop (gbp : String → String) (project_id : String)
    (worlds : Nat → UrlWorld) :
    Nat → List SearchResult → List ContentExtraction × List (String × String)
  | _, [] => ([], [])
  | i, r :: rest =>
    let p := extractOne gbp project_id i r (worlds i)
    let q := extractLoop gbp project_id worlds (i + 1) rest
    (p.1 :: q.1, p.2 ++ q.2)

/-- `extract_content_from_urls`, returning the artifact list and the trace of
`.md` file writes. -/
def extract_content_from_urls (gbp : String → String)
    (search_results : SearchResults) (project_id : String)
    (worlds : Nat → UrlWorld) :
    List ContentExtraction × List (String × String) :=
  extractLoop gbp project_id worlds 0 search_results.organic_results

/-- The per-URL write batches, indexed like the extraction loop. -/
def writeBatches (gbp : String → String) (project_id : String)
    (worlds : Nat → UrlWorld) : Nat → List SearchResult → List (String × String)
  | _, [] => []
  | i, r :: rest =>
    (extractOne gbp project_id i r (worlds i)).2 ++
      writeBatches gbp project_id worlds (i + 1) rest

/-! ## `analyze_opposition` (lines 359-456) -/

/-- The evidence-block fragment contributed by one successful, non-empty
artifact (lines 378-380). -/
def contentPiece (e : ContentExtraction) : String :=
  "\n\n--- Content from " ++ e.url ++ " ---\n" ++ "Title: " ++ e.title ++ "\n" ++
    "Content: " ++ e.content ++ "\n"

/-- The `all_content` accumulator (lines 373-381). -/
def buildAllContent : List ContentExtraction → String
  | [] => ""
  | e :: rest =>
    (if e.extraction_success && e.content ≠ "" then contentPiece e else "") ++
      buildAllContent rest

/-- The short-circuit verdict returned when no usable content exists
(lines 384-390). -/
def noContentAnalysis : OppositionAnalysis :=
  ⟨false, [], "No content could be extracted from search results to analyze.", 0, []⟩

/-- The exception-handler verdict (lines 450-456). -/
def errorAnalysis (msg : String) : OppositionAnalysis :=
  ⟨false, [], "Error during analysis: " ++ msg, 0, []⟩

/-- The hard-coded tier-3 fallback JSON of the analysis parser (line 438). -/
def defaultAnalysisJson : String :=
  "\x7b\"has_opposition_evidence\": false, \"opposition_types\": [], \"summary\": \"Could not parse analysis results\", \"confidence_score\": 0.0, \"sources\": []\x7d"

/-- Parse a raw Gemini analysis reply: strip, three-tier JSON extraction,
`json.loads`, pydantic validation. -/
def parseAnalysisText (raw : String) : Except String OppositionAnalysis :=
  (jsonLoads (extractJson (pyStrip raw) defaultAnalysisJson)).bind validateAnalysis

/-- `analyze_opposition`, with the Gemini call's outcome as a world input.
The second component records whether the external model was invoked. -/
def analyze_opposition (project_data : ProjectData)
    (content_extractions : List ContentExtraction)
    (modelReply : Except String String) : OppositionAnalysis × Bool :=
  let all_content := buildAllContent content_extractions
  if pyStrip all_content = "" then (noContentAnalysis, false)
  else
    match modelReply with
    | Except.error m => (errorAnalysis m, true)
    | Except.ok raw =>
      match parseAnalysisText raw with
      | Except.ok a => (a, true)
      | Except.error m => (errorAnalysis m, true)

/-! ## `analyze_project` (lines 484-582) -/

/-- The externally visible unit of work: the success dict of lines 568-574 or
the error dict of lines 578-582. -/
inductive Report where
  | ok (project_id project_name : String) (analysis : OppositionAnalysis)
      (total_urls_found content_extracted : Nat)
  | error (project_id project_name : String) (msg : String)
deriving DecidableEq

/-- World for a whole pipeline run: the two Gemini outcomes, the two search
responses, the per-URL extraction worlds, `group_broken_paragraphs`, and the
outcome of each `save_data` call (`some msg` = the write raised). -/
structure PipelineWorld where
  queryReply : Except String String
  enSearch : SearchResponse
  bnSearch : SearchResponse
  urlWorlds : Nat → UrlWorld
  gbp : String → String
  analysisReply : Except String String
  saveSearch : Option String
  saveResult : Option String
  saveContent : Option String
  saveSummary : Option String

/-- The combined mixed-language result set built at lines 526-531. -/
def combinedResults (english_query bangla_query : String) (en bn : SearchResults) :
    SearchResults :=
  ⟨en.organic_results ++ bn.organic_results,
   en.total_results + bn.total_results,
   "English: " ++ english_query ++ " | Bangla: " ++ bangla_query,
   "mixed"⟩

/-- `analyze_project`: the orchestrator with its project-boundary exception
handler.  A failing `save_data` call is the raise site that reaches the
boundary handler. -/
def analyze_project (w : PipelineWorld) (project_data : ProjectData) : Report :=
  let project_id := project_data.project_id.getD "unknown"
  let project_name := project_data.project_name.getD "Unknown"
  let queries := generate_search_queries project_data w.queryReply
  match w.saveSearch with
  | some e => Report.error project_id project_name e
  | none =>
    let english_results := search_with_brightdata queries.english_query "en" w.enSearch
    let bangla_results := search_with_brightdata queries.bangla_query "bn" w.bnSearch
    match w.saveResult with
    | some e => Report.error project_id project_name e
    | none =>
      let all_results :=
        combinedResults queries.english_query queries.bangla_query
          english_results bangla_results
      let extraction := extract_content_from_urls w.gbp all_results project_id w.urlWorlds
      match w.saveContent with
      | some e => Report.error project_id project_name e
      | none =>
        let analysis := (analyze_opposition project_data extraction.1 w.analysisReply).1
        match w.saveSummary with
        | some e => Report.error project_id project_name e
        | none =>
          Report.ok project_id project_name analysis
            all_results.organic_results.length
            (extraction.1.filter (fun c => c.extraction_success)).length

/-! ## Theorems -/

/-- A Brightdata round trip on a failure path: an exception during the
request or parsing, a `json.JSONDecodeError` from `response.json()`, or a
non-200 status code. -/
def isFailureResponse : SearchResponse → Bool
  | SearchResponse.exn _ => true
  | SearchResponse.http _ (SearchPayload.invalidJson _) => true
  | SearchResponse.http status _ => status != 200

/-- C2: for every query string, `search_with_brightdata` never raises: on a
non-200 HTTP status, a malformed JSON envelope, or any exception during the
request or parsing, it returns an empty `SearchResults` whose
`organic_results` is empty and whose `total_results` equals 0. -/
theorem search_failure_returns_empty (query language : String)
    (response : SearchResponse) (h : isFailureResponse response = true) :
    search_with_brightdata query language response = emptyResults query language ∧
    (search_with_brightdata query language response).organic_results = [] ∧
    (search_with_brightdata query language response).total_results = 0 := by
  cases response with
  | exn m => exact ⟨rfl, rfl, rfl⟩
  | http status payload =>
    cases payload with
    | invalidJson m =>
      by_cases h200 : status = 200 <;>
        simp [search_with_brightdata, h200, emptyResults]
    | jsonNoBody =>
      have hne : status ≠ 200 := by
        simpa [isFailureResponse] using h
      simp [search_with_brightdata, hne, emptyResults]
    | jsonBody blocks =>
      have hne : status ≠ 200 := by
        simpa [isFailureResponse] using h
      simp [search_with_brightdata, hne, emptyResults]

/-- Witness: a concrete HTTP 500 response yields the empty result set. -/
theorem search_failure_returns_empty_witness :
    isFailureResponse (SearchResponse.http 500 SearchPayload.jsonNoBody) = true ∧
    search_with_brightdata "solar query" "en" (SearchResponse.http 500 SearchPayload.jsonNoBody) =
      emptyResults "solar query" "en" :=
  ⟨by decide,
   (search_failure_returns_empty "solar query" "en" _ (by decide)).1⟩

/-- C10: every `SearchResults` the pipeline constructs satisfies
`total_results = organic_results.length`: `search_with_brightdata` sets
`total_results` to the number of parsed results (0 on any failure), and the
combined mixed-language set of `analyze_project` preserves the invariant
because it concatenates the two lists and sums the two counts. -/
theorem total_results_matches_length :
    (∀ (query language : String) (response : SearchResponse),
      (search_with_brightdata query language response).total_results =
        (search_with_brightdata query language response).organic_results.length) ∧
    (∀ (qe qb : String) (en bn : SearchResults),
      en.total_results = en.organic_results.length →
      bn.total_results = bn.organic_results.length →
      (combinedResults qe qb en bn).total_results =
        (combinedResults qe qb en bn).organic_results.length) := by
  constructor
  · intro query language response
    cases response with
    | exn m => rfl
    | http status payload =>
      by_cases h200 : status = 200 <;>
        cases payload <;> simp [search_with_brightdata, h200, emptyResults]
  · intro qe qb en bn h1 h2
    simp [combinedResults, h1, h2]

/-- Witness: the invariant holds for a concrete combined result set. -/
theorem total_results_matches_length_witness :
    (combinedResults "qa" "qb" ⟨[⟨"t", "l", "d", 1⟩], 1, "qa", "en"⟩ ⟨[], 0, "qb", "bn"⟩).total_results =
      (combinedResults "qa" "qb" ⟨[⟨"t", "l", "d", 1⟩], 1, "qa", "en"⟩
        ⟨[], 0, "qb", "bn"⟩).organic_results.length :=
  total_results_matches_length.2 "qa" "qb" _ _ (by decide) (by decide)

/-- The evidence accumulator is empty when every artifact is failed or has
empty content. -/
theorem buildAllContent_eq_empty (exts : List ContentExtraction)
    (h : ∀ e ∈ exts, e.extraction_success = false ∨ e.content = "") :
    buildAllContent exts = "" := by
  induction exts with
  | nil => rfl
  | cons e rest ih =>
    have he := h e (List.mem_cons_self _ _)
    have hrest := ih (fun x hx => h x (List.mem_cons_of_mem _ hx))
    rcases he with h1 | h1 <;> simp [buildAllContent, h1, hrest]

/-- C5: if every `ContentArtifact` in the input list is failed or has empty
content (including the empty list), `analyze_opposition` returns the
deterministic no-evidence verdict (`has_opposition_evidence = false`,
confidence 0, empty types and sources) without invoking the external model
(second component `false`). -/
theorem analysis_no_content_short_circuit (project_data : ProjectData)
    (exts : List ContentExtraction) (reply : Except String String)
    (h : ∀ e ∈ exts, e.extraction_success = false ∨ e.content = "") :
    analyze_opposition project_data exts reply = (noContentAnalysis, false) ∧
    noContentAnalysis.has_opposition_evidence = false ∧
    noContentAnalysis.confidence_score = 0 ∧
    noContentAnalysis.opposition_types = [] ∧
    noContentAnalysis.sources = [] := by
  refine ⟨?_, rfl, rfl, rfl, rfl⟩
  unfold analyze_opposition
  rw [buildAllContent_eq_empty exts h]
  rfl

/-- Witness: concrete failed and empty artifacts short-circuit the
analysis. -/
theorem analysis_no_content_short_circuit_witness :
    analyze_opposition ⟨none, none, none, none, none, none⟩
      [⟨"http://x", "t", "", false, some "err"⟩, ⟨"http://y", "t2", "", true, none⟩]
      (Except.error "never invoked") = (noContentAnalysis, false) :=
  (analysis_no_content_short_circuit _ _ _ (by decide)).1

/-- C4: `analyze_opposition` never raises: whenever the model is actually
invoked (second component `true`), an exception in the model call
(`Except.error`) or a failure of verdict parsing is converted into the
fallback verdict with `has_opposition_evidence = false`, confidence 0, empty
types and sources, and the exception message carried in `summary`. -/
theorem analysis_exception_fallback (project_data : ProjectData)
    (exts : List ContentExtraction) (reply : Except String String) :
    (∀ m, reply = Except.error m →
      (analyze_opposition project_data exts reply).2 = true →
      (analyze_opposition project_data exts reply).1 = errorAnalysis m) ∧
    (∀ raw m, reply = Except.ok raw → parseAnalysisText raw = Except.error m →
      (analyze_opposition project_data exts reply).2 = true →
      (analyze_opposition project_data exts reply).1 = errorAnalysis m) ∧
    (∀ m, (errorAnalysis m).has_opposition_evidence = false ∧
      (errorAnalysis m).confidence_score = 0 ∧
      (errorAnalysis m).opposition_types = [] ∧
      (errorAnalysis m).sources = [] ∧
      (errorAnalysis m).summary = "Error during analysis: " ++ m) := by
  refine ⟨?_, ?_, fun m => ⟨rfl, rfl, rfl, rfl, rfl⟩⟩
  · rintro m rfl
    unfold analyze_opposition
    by_cases hstrip : pyStrip (buildAllContent exts) = "" <;> simp [hstrip]
  · rintro raw m rfl hparse
    unfold analyze_opposition
    by_cases hstrip : pyStrip (buildAllContent exts) = "" <;> simp [hstrip, hparse]

/-- Witness: a concrete model exception is converted into the fallback
verdict. -/
theorem analysis_exception_fallback_witness :
    (analyze_opposition ⟨none, none, none, none, none, none⟩
      [⟨"http://x", "t", "protest reported", true, none⟩]
      (Except.error "model timeout")).1 = errorAnalysis "model timeout" :=
  (analysis_exception_fallback _ _ _).1 "model timeout" rfl (by decide)

/-- The project id a report carries. -/
def reportId : Report → String
  | Report.ok pid _ _ _ _ => pid
  | Report.error pid _ _ => pid

/-- The project name a report carries. -/
def reportName : Report → String
  | Report.ok _ pname _ _ _ => pname
  | Report.error _ pname _ => pname

/-- Whether a report is the success dict (as opposed to the error dict). -/
def reportIsOk : Report → Bool
  | Report.ok _ _ _ _ _ => true
  | Report.error _ _ _ => false

/-- C6: `analyze_project` never raises: it always returns a report carrying
the project id and project name, a run in which no `save_data` call raises
produces the success report, and an unexpected exception escaping to the
project boundary from any of the four modelled raise sites (the four
`save_data` calls, the first failing one winning) produces the error report
with that exception's message. -/
theorem project_boundary_error_isolation (w : PipelineWorld)
    (project_data : ProjectData) :
    reportId (analyze_project w project_data) =
      project_data.project_id.getD "unknown" ∧
    reportName (analyze_project w project_data) =
      project_data.project_name.getD "Unknown" ∧
    (w.saveSearch = none → w.saveResult = none → w.saveContent = none →
      w.saveSummary = none →
      reportIsOk (analyze_project w project_data) = true) ∧
    (∀ m, w.saveSearch = some m →
      analyze_project w project_data =
        Report.error (project_data.project_id.getD "unknown")
          (project_data.project_name.getD "Unknown") m) ∧
    (∀ m, w.saveSearch = none → w.saveResult = some m →
      analyze_project w project_data =
        Report.error (project_data.project_id.getD "unknown")
          (project_data.project_name.getD "Unknown") m) ∧
    (∀ m, w.saveSearch = none → w.saveResult = none → w.saveContent = some m →
      analyze_project w project_data =
        Report.error (project_data.project_id.getD "unknown")
          (project_data.project_name.getD "Unknown") m) ∧
    (∀ m, w.saveSearch = none → w.saveResult = none → w.saveContent = none →
      w.saveSummary = some m →
      analyze_project w project_data =
        Report.error (project_data.project_id.getD "unknown")
          (project_data.project_name.getD "Unknown") m) := by
  have hshape : ∀ (o1 o2 o3 o4 : Option String),
      w.saveSearch = o1 → w.saveResult = o2 → w.saveContent = o3 →
      w.saveSummary = o4 →
      reportId (analyze_project w project_data) =
        project_data.project_id.getD "unknown" ∧
      reportName (analyze_project w project_data) =
        project_data.project_name.getD "Unknown" := by
    intro o1 o2 o3 o4 h1 h2 h3 h4
    cases o1 <;> cases o2 <;> cases o3 <;> cases o4 <;>
      · unfold analyze_project
        rw [h1, h2, h3, h4]
        exact ⟨rfl, rfl⟩
  obtain ⟨hid, hname⟩ := hshape _ _ _ _ rfl rfl rfl rfl
  refine ⟨hid, hname, ?_, ?_, ?_, ?_, ?_⟩
  · intro hs hr hc hm
    unfold analyze_project
    rw [hs, hr, hc, hm]
    rfl
  · intro m hs
    unfold analyze_project
    rw [hs]
  · intro m hs hr
    unfold analyze_project
    rw [hs, hr]
  · intro m hs hr hc
    unfold analyze_project
    rw [hs, hr, hc]
  · intro m hs hr hc hm
    unfold analyze_project
    rw [hs, hr, hc, hm]

/-- Concrete pipeline world whose last `save_data` call (the summary write)
raises while the three earlier saves succeed. -/
def failingSaveWorld : PipelineWorld :=
  ⟨Except.error "query model down", SearchResponse.exn "net", SearchResponse.exn "net",
   fun _ => ⟨JinaOutcome.exn "jina down", Except.error "partition down", true⟩, id,
   Except.error "analysis model down", none, none, none, some "disk full"⟩

/-- Witness: a concrete failing summary save, reached after three successful
saves, produces the error report with its message. -/
theorem project_boundary_error_isolation_witness :
    analyze_project failingSaveWorld ⟨some "351", some "Solar Park", none, none, none, none⟩ =
      Report.error "351" "Solar Park" "disk full" :=
  (project_boundary_error_isolation failingSaveWorld _).2.2.2.2.2.2 "disk full"
    rfl rfl rfl rfl

/-- The extraction loop produces one artifact per input result. -/
theorem extractLoop_length (gbp : String → String) (pid : String)
    (worlds : Nat → UrlWorld) :
    ∀ (rs : List SearchResult) (i : Nat),
      ((extractLoop gbp pid worlds i rs).1).length = rs.length := by
  intro rs
  induction rs with
  | nil => intro i; rfl
  | cons r rest ih =>
    intro i
    simp [extractLoop, ih (i + 1)]

/-- The `j`-th artifact of the loop started at index `i` is the artifact of
`extractOne` applied to the `j`-th result and the world at `i + j`. -/
theorem extractLoop_get (gbp : String → String) (pid : String)
    (worlds : Nat → UrlWorld) :
    ∀ (rs : List SearchResult) (i j : Nat) (hj : j < rs.length)
      (hj2 : j < ((extractLoop gbp pid worlds i rs).1).length),
      ((extractLoop gbp pid worlds i rs).1).get ⟨j, hj2⟩ =
        (extractOne gbp pid (i + j) (rs.get ⟨j, hj⟩) (worlds (i + j))).1 := by
  intro rs
  induction rs with
  | nil => intro i j hj; exact absurd hj (Nat.not_lt_zero j)
  | cons r rest ih =>
    intro i j hj hj2
    cases j with
    | zero => simp [extractLoop]
    | succ j' =>
      have hj' : j' < rest.length := Nat.lt_of_succ_lt_succ hj
      have hj2' : j' < ((extractLoop gbp pid worlds (i + 1) rest).1).length := by
        rw [extractLoop_length]; exact hj'
      have step := ih (i + 1) j' hj' hj2'
      have harith : i + (j' + 1) = (i + 1) + j' := by omega
      simp only [extractLoop, List.get_cons_succ, harith]
      exact step

/-- The artifact of one URL carries that URL's link. -/
theorem extractOne_url (gbp : String → String) (pid : String) (i : Nat)
    (r : SearchResult) (w : UrlWorld) :
    (extractOne gbp pid i r w).1.url = r.link := by
  unfold extractOne
  cases rawContent w <;> rfl

/-- The artifact of one URL carries that URL's result title. -/
theorem extractOne_title (gbp : String → String) (pid : String) (i : Nat)
    (r : SearchResult) (w : UrlWorld) :
    (extractOne gbp pid i r w).1.title = r.title := by
  unfold extractOne
  cases rawContent w <;> rfl

/-- The loop preserves the input links in order. -/
theorem extractLoop_map_url (gbp : String → String) (pid : String)
    (worlds : Nat → UrlWorld) :
    ∀ (rs : List SearchResult) (i : Nat),
      ((extractLoop gbp pid worlds i rs).1).map (fun a => a.url) =
        rs.map (fun r => r.link) := by
  intro rs
  induction rs with
  | nil => intro i; rfl
  | cons r rest ih =>
    intro i
    simp [extractLoop, ih (i + 1), extractOne_url]

/-- The loop preserves the input titles in order. -/
theorem extractLoop_map_title (gbp : String → String) (pid : String)
    (worlds : Nat → UrlWorld) :
    ∀ (rs : List SearchResult) (i : Nat),
      ((extractLoop gbp pid worlds i rs).1).map (fun a => a.title) =
        rs.map (fun r => r.title) := by
  intro rs
  induction rs with
  | nil => intro i; rfl
  | cons r rest ih =>
    intro i
    simp [extractLoop, ih (i + 1), extractOne_title]

/-- C1: `extract_content_from_urls` returns exactly one `ContentArtifact` per
input `SearchResult`, in input order (same links and titles, same length);
when both extraction paths fail for the URL at index `j` the artifact at
index `j` (and only that one, the others being computed from their own
worlds) is the failed artifact with empty content and the exception message,
and when either path succeeds the artifact at index `j` is the successful
artifact with the cleaned, truncated content. -/
theorem extract_artifacts_per_result (gbp : String → String)
    (sr : SearchResults) (project_id : String) (worlds : Nat → UrlWorld) :
    ((extract_content_from_urls gbp sr project_id worlds).1).map (fun a => a.url) =
      sr.organic_results.map (fun r => r.link) ∧
    ((extract_content_from_urls gbp sr project_id worlds).1).map (fun a => a.title) =
      sr.organic_results.map (fun r => r.title) ∧
    ((extract_content_from_urls gbp sr project_id worlds).1).length =
      sr.organic_results.length ∧
    (∀ (j : Nat) (hj : j < sr.organic_results.length)
      (hj2 : j < ((extract_content_from_urls gbp sr project_id worlds).1).length),
      (∀ m, rawContent (worlds j) = Except.error m →
        ((extract_content_from_urls gbp sr project_id worlds).1).get ⟨j, hj2⟩ =
          ⟨(sr.organic_results.get ⟨j, hj⟩).link,
            (sr.organic_results.get ⟨j, hj⟩).title, "", false, some m⟩) ∧
      (∀ c, rawContent (worlds j) = Except.ok c →
        ((extract_content_from_urls gbp sr project_id worlds).1).get ⟨j, hj2⟩ =
          ⟨(sr.organic_results.get ⟨j, hj⟩).link,
            (sr.organic_results.get ⟨j, hj⟩).title,
            truncateContent (gbp c), true, none⟩)) := by
  refine ⟨extractLoop_map_url gbp project_id worlds _ 0,
    extractLoop_map_title gbp project_id worlds _ 0,
    extractLoop_length gbp project_id worlds _ 0, ?_⟩
  intro j hj hj2
  have hget := extractLoop_get gbp project_id worlds sr.organic_results 0 j hj hj2
  simp only [Nat.zero_add] at hget
  constructor
  · intro m hm
    unfold extract_content_from_urls
    rw [hget]
    unfold extractOne
    rw [hm]
  · intro c hc
    unfold extract_content_from_urls
    rw [hget]
    unfold extractOne
    rw [hc]

/-- Concrete two-result set for the extraction witnesses. -/
def witnessResultSet : SearchResults :=
  ⟨[⟨"T1", "http://a", "", 1⟩, ⟨"T2", "http://b", "", 2⟩], 2, "q", "mixed"⟩

/-- Concrete per-URL worlds: URL 0 fails both paths, URL 1 succeeds. -/
def witnessWorlds : Nat → UrlWorld := fun i =>
  if i = 0 then ⟨JinaOutcome.exn "jina refused", Except.error "both failed", true⟩
  else ⟨JinaOutcome.ok "BODY", Except.ok [], true⟩

/-- Witness: concrete per-URL worlds produce the expected failed and
successful artifacts. -/
theorem extract_artifacts_per_result_witness :
    ((extract_content_from_urls id witnessResultSet "p" witnessWorlds).1).get
        ⟨0, by decide⟩ = ⟨"http://a", "T1", "", false, some "both failed"⟩ ∧
    ((extract_content_from_urls id witnessResultSet "p" witnessWorlds).1).get
        ⟨1, by decide⟩ = ⟨"http://b", "T2", "BODY", true, none⟩ :=
  ⟨((extract_artifacts_per_result id witnessResultSet "p" witnessWorlds).2.2.2 0
      (by decide) (by decide)).1 "both failed" (by decide),
   ((extract_artifacts_per_result id witnessResultSet "p" witnessWorlds).2.2.2 1
      (by decide) (by decide)).2 "BODY" (by decide)⟩

/-- The write trace of the loop is the concatenation of the per-URL write
batches. -/
theorem extractLoop_writes (gbp : String → String) (pid : String)
    (worlds : Nat → UrlWorld) :
    ∀ (rs : List SearchResult) (i : Nat),
      (extractLoop gbp pid worlds i rs).2 = writeBatches gbp pid worlds i rs := by
  intro rs
  induction rs with
  | nil => intro i; rfl
  | cons r rest ih =>
    intro i
    simp [extractLoop, writeBatches, ih (i + 1)]

/-- C8 (amended): the write trace of `extract_content_from_urls` decomposes
into per-URL batches; the batch of a URL whose primary `r.jina.ai` request
succeeded holds exactly the raw primary body at `content/<id>_<i+1>.md`; when
the primary path failed but the fallback extractor succeeded, the batch holds
the fallback's raw joined text instead of any primary output; when both paths
failed, or when the file write itself raised (which is swallowed), nothing is
written for that URL. -/
theorem raw_persist_on_success (gbp : String → String) (sr : SearchResults)
    (project_id : String) (worlds : Nat → UrlWorld) :
    (∀ (i : Nat) (r : SearchResult),
      (∀ body, (worlds i).jina = JinaOutcome.ok body → (worlds i).writeOk = true →
        (extractOne gbp project_id i r (worlds i)).2 =
          [(mdPath project_id i, body)]) ∧
      (∀ texts, jinaBody (worlds i).jina = none →
        (worlds i).partitionElems = Except.ok texts → (worlds i).writeOk = true →
        (extractOne gbp project_id i r (worlds i)).2 =
          [(mdPath project_id i,
            String.intercalate "\n" (texts.filter (fun t => t ≠ "")))]) ∧
      (∀ m, rawContent (worlds i) = Except.error m →
        (extractOne gbp project_id i r (worlds i)).2 = []) ∧
      ((worlds i).writeOk = false →
        (extractOne gbp project_id i r (worlds i)).2 = [])) ∧
    (extract_content_from_urls gbp sr project_id worlds).2 =
      writeBatches gbp project_id worlds 0 sr.organic_results := by
  refine ⟨?_, extractLoop_writes gbp project_id worlds _ 0⟩
  intro i r
  refine ⟨?_, ?_, ?_, ?_⟩
  · intro body hb hw
    unfold extractOne rawContent
    rw [hb]
    simp [hw]
  · intro texts hjina hpart hw
    unfold extractOne rawContent
    cases hj : (worlds i).jina with
    | ok b => rw [hj] at hjina; exact absurd hjina (by simp [jinaBody])
    | badStatus code => rw [hpart]; simp [hw]
    | exn m => rw [hpart]; simp [hw]
  · intro m hm
    unfold extractOne
    rw [hm]
  · intro hw
    unfold extractOne
    cases hr : rawContent (worlds i) with
    | error m => rfl
    | ok c => simp [hw]

/-- Witness: a concrete successful primary fetch persists its raw body. -/
theorem raw_persist_on_success_witness :
    (extractOne id "p" 0 ⟨"T1", "http://a", "", 1⟩ (witnessWorlds 1)).2 =
      [("content/p_1.md", "BODY")] :=
  ((raw_persist_on_success id witnessResultSet "p" (fun _ => witnessWorlds 1)).1 0
    ⟨"T1", "http://a", "", 1⟩).1 "BODY" (by decide) (by decide)

/-- C8 counterexample: a URL whose extraction finally fails (both paths
raise) produces a failed artifact and no `.md` file write at all, refuting
persistence "regardless of whether extraction succeeds or fails". -/
theorem raw_persist_counterexample :
    ((extract_content_from_urls id ⟨[⟨"T", "http://x", "", 1⟩], 1, "q", "en"⟩ "p1"
        (fun _ => ⟨JinaOutcome.exn "boom", Except.error "partition failed", true⟩)).1).map
        (fun a => a.extraction_success) = [false] ∧
    (extract_content_from_urls id ⟨[⟨"T", "http://x", "", 1⟩], 1, "q", "en"⟩ "p1"
        (fun _ => ⟨JinaOutcome.exn "boom", Except.error "partition failed", true⟩)).2 =
      [] :=
  ⟨by decide, by decide⟩

/-- A kept block yields a result whose position is one more than the block's
enumeration index and which has a title or a link. -/
theorem blockToResult_some (i : Nat) (b : ResultBlock) (r : SearchResult)
    (h : blockToResult i b = some r) :
    (r.title ≠ "" ∨ r.link ≠ "") ∧ r.position = i + 1 := by
  unfold blockToResult at h
  split at h
  · cases h
    next hcond => exact ⟨by simpa using hcond, rfl⟩
  · exact absurd h (by simp)

/-- Invariants of the block-enumeration loop: at most one result per block,
every result has a title or a link, positions are strictly increasing, and
every position lies in `(i, i + number of blocks]`. -/
theorem parseBlocks_props :
    ∀ (bs : List ResultBlock) (i : Nat),
      (parseBlocks i bs).length ≤ bs.length ∧
      (∀ r ∈ parseBlocks i bs,
        (r.title ≠ "" ∨ r.link ≠ "") ∧ i + 1 ≤ r.position ∧
          r.position ≤ i + bs.length) ∧
      ((parseBlocks i bs).map (fun r => r.position)).Chain' (· < ·) := by
  intro bs
  induction bs with
  | nil => intro i; exact ⟨Nat.le_refl 0, fun r hr => absurd hr (by simp [parseBlocks]), by simp [parseBlocks]⟩
  | cons b rest ih =>
    intro i
    obtain ⟨ihlen, ihmem, ihchain⟩ := ih (i + 1)
    cases hb : blockToResult i b with
    | none =>
      refine ⟨?_, ?_, ?_⟩
      · simpa [parseBlocks, hb] using Nat.le_succ_of_le ihlen
      · intro r hr
        rw [parseBlocks, hb] at hr
        obtain ⟨h1, h2, h3⟩ := ihmem r hr
        exact ⟨h1, by omega, by simpa [Nat.succ_add] using h3⟩
      · simpa [parseBlocks, hb] using ihchain
    | some r0 =>
      obtain ⟨hr0tl, hr0pos⟩ := blockToResult_some i b r0 hb
      refine ⟨?_, ?_, ?_⟩
      · simpa [parseBlocks, hb] using Nat.succ_le_succ ihlen
      · intro r hr
        rw [parseBlocks, hb] at hr
        rcases List.mem_cons.mp hr with h | h
        · subst h
          exact ⟨hr0tl, by omega, by simp [hr0pos]⟩
        · obtain ⟨h1, h2, h3⟩ := ihmem r h
          exact ⟨h1, by omega, by simpa [Nat.succ_add] using h3⟩
      · rw [parseBlocks, hb]
        cases htail : parseBlocks (i + 1) rest with
        | nil => simp
        | cons r1 t1 =>
          rw [htail] at ihchain
          have hr1 : r1 ∈ parseBlocks (i + 1) rest := by
            rw [htail]; exact List.mem_cons_self _ _
          have hr1pos := (ihmem r1 hr1).2.1
          simp only [List.map_cons]
          exact List.Chain'.cons (by omega) (by simpa using ihchain)

/-- C9 (amended): every result set `search_with_brightdata` returns holds at
most 10 results, none of which lacks both title and link; the `position`
fields are strictly increasing values in `[1, 10]` — each is the 1-based
enumeration index of the originating candidate block, which exceeds the
result's rank when an earlier candidate block was discarded. -/
theorem search_results_invariants (query language : String)
    (response : SearchResponse) :
    (search_with_brightdata query language response).organic_results.length ≤ 10 ∧
    (∀ r ∈ (search_with_brightdata query language response).organic_results,
      r.title ≠ "" ∨ r.link ≠ "") ∧
    (((search_with_brightdata query language response).organic_results.map
        (fun r => r.position)).Chain' (· < ·)) ∧
    (∀ r ∈ (search_with_brightdata query language response).organic_results,
      1 ≤ r.position ∧ r.position ≤ 10) := by
  have hempty : ∀ q l : String,
      (emptyResults q l).organic_results.length ≤ 10 ∧
      (∀ r ∈ (emptyResults q l).organic_results, r.title ≠ "" ∨ r.link ≠ "") ∧
      (((emptyResults q l).organic_results.map (fun r => r.position)).Chain' (· < ·)) ∧
      (∀ r ∈ (emptyResults q l).organic_results, 1 ≤ r.position ∧ r.position ≤ 10) := by
    intro q l
    exact ⟨by simp [emptyResults], fun r hr => absurd hr (by simp [emptyResults]),
      by simp [emptyResults], fun r hr => absurd hr (by simp [emptyResults])⟩
  cases response with
  | exn m => exact hempty query language
  | http status payload =>
    by_cases h200 : status = 200
    · cases payload with
      | invalidJson m => simpa [search_with_brightdata, h200] using hempty query language
      | jsonNoBody =>
        refine ⟨?_, ?_, ?_, ?_⟩ <;>
          simp [search_with_brightdata, h200]
      | jsonBody blocks =>
        obtain ⟨hlen, hmem, hchain⟩ := parseBlocks_props (blocks.take 10) 0
        have htake : (blocks.take 10).length ≤ 10 := List.length_take_le 10 blocks
        refine ⟨?_, ?_, ?_, ?_⟩
        · simpa [search_with_brightdata, h200] using Nat.le_trans hlen htake
        · intro r hr
          rw [search_with_brightdata] at hr
          simp only [h200, if_true] at hr
          exact (hmem r hr).1
        · simpa [search_with_brightdata, h200] using hchain
        · intro r hr
          rw [search_with_brightdata] at hr
          simp only [h200, if_true] at hr
          obtain ⟨h1, h2, h3⟩ := hmem r hr
          exact ⟨by omega, by omega⟩
    · cases payload <;> simpa [search_with_brightdata, h200] using hempty query language

/-- Witness: the position bounds hold for a concrete parsed result. -/
theorem search_results_invariants_witness :
    1 ≤ (⟨"Heading", "http://a", "", 1⟩ : SearchResult).position ∧
      (⟨"Heading", "http://a", "", 1⟩ : SearchResult).position ≤ 10 :=
  (search_results_invariants "q" "en"
      (SearchResponse.http 200 (SearchPayload.jsonBody
        [⟨some ⟨"http://a", some "Heading", "x"⟩, [], "Heading"⟩]))).2.2.2
    ⟨"Heading", "http://a", "", 1⟩ (by decide)

/-- A candidate block with no anchor: discarded by the loop. -/
def noAnchorBlock : ResultBlock := ⟨none, [], "junk"⟩

/-- A candidate block carrying a plain anchor with a heading. -/
def anchoredBlock : ResultBlock :=
  ⟨some ⟨"http://example.org", some "Example Title", "anchor"⟩, [], "Example Title"⟩

/-- C9 counterexample: when the first candidate block is discarded (no
anchor), the first retained result carries position 2, so the k-th result's
`position` is not its 1-based rank within the result set. -/
theorem position_rank_counterexample :
    ¬ (∀ (k : Nat)
        (h : k < (search_with_brightdata "q" "en"
          (SearchResponse.http 200 (SearchPayload.jsonBody
            [noAnchorBlock, anchoredBlock]))).organic_results.length),
        ((search_with_brightdata "q" "en"
          (SearchResponse.http 200 (SearchPayload.jsonBody
            [noAnchorBlock, anchoredBlock]))).organic_results.get ⟨k, h⟩).position =
          k + 1) := by
  decide

/-! ### String-search lemmas for the three-tier extraction -/

theorem strData (s t : String) : (s ++ t).data = s.data ++ t.data := rfl

theorem startsWith_append_self : ∀ (p r : List Char), startsWith (p ++ r) p = true
  | [], _ => by simp [startsWith]
  | c :: p, r => by simp [startsWith, startsWith_append_self p r]

theorem findSub_append_notin :
    ∀ (s1 s2 : List Char) (c0 : Char) (pt : List Char),
      (∀ c ∈ s1, c ≠ c0) → startsWith s2 (c0 :: pt) = true →
      findSub (s1 ++ s2) (c0 :: pt) = some s1.length
  | [], s2, c0, pt, hc, h2 => by
    cases s2 with
    | nil => simp [startsWith] at h2
    | cons d ds => simp [findSub, h2]
  | c :: t, s2, c0, pt, hc, h2 => by
    have hne : c ≠ c0 := hc c (List.mem_cons_self _ _)
    have ih := findSub_append_notin t s2 c0 pt
      (fun d hd => hc d (List.mem_cons_of_mem _ hd)) h2
    simp [findSub, startsWith, hne, ih]

theorem containsSub_append_right :
    ∀ (s1 s2 pat : List Char),
      containsSub s2 pat = true → containsSub (s1 ++ s2) pat = true
  | [], s2, pat, h => h
  | c :: t, s2, pat, h => by
    have ih := containsSub_append_right t s2 pat h
    unfold containsSub at ih ⊢
    rw [List.cons_append, findSub]
    by_cases hs : startsWith (c :: (t ++ s2)) pat = true
    · simp [hs]
    · simp only [hs, if_false]
      simpa using ih

theorem rfindSub_append_right :
    ∀ (s1 s2 pat : List Char) (i : Nat),
      rfindSub s2 pat = some i → rfindSub (s1 ++ s2) pat = some (s1.length + i)
  | [], s2, pat, i, h => by simpa using h
  | c :: t, s2, pat, i, h => by
    have ih := rfindSub_append_right t s2 pat i h
    rw [List.cons_append, rfindSub, ih]
    simp only [Option.some.injEq, List.length_cons]
    omega

theorem rfindSub_single_notin :
    ∀ (s : List Char) (c0 : Char), (∀ c ∈ s, c ≠ c0) → rfindSub s [c0] = none
  | [], c0, h => by simp [rfindSub, startsWith]
  | c :: t, c0, h => by
    have hne : c ≠ c0 := h c (List.mem_cons_self _ _)
    have ih := rfindSub_single_notin t c0 (fun d hd => h d (List.mem_cons_of_mem _ hd))
    simp [rfindSub, ih, startsWith, hne]

theorem rfindSub_cons_self (c0 : Char) (b : List Char) (hb : ∀ c ∈ b, c ≠ c0) :
    rfindSub (c0 :: b) [c0] = some 0 := by
  simp [rfindSub, rfindSub_single_notin b c0 hb, startsWith]

theorem take_drop_middle :
    ∀ (s1 s2 s3 : List Char),
      ((s1 ++ (s2 ++ s3)).take (s1.length + s2.length)).drop s1.length = s2
  | [], s2, s3 => by simp [List.take_left]
  | c :: t, s2, s3 => by
    have ih := take_drop_middle t s2 s3
    rw [List.cons_append, List.length_cons,
      show t.length + 1 + s2.length = (t.length + s2.length) + 1 from by omega,
      List.take_succ_cons, List.drop_succ_cons]
    exact ih

theorem sliceNorm_ofNat (n k : Nat) (h : k ≤ n) : sliceNorm n ((k : Nat) : Int) = k := by
  unfold sliceNorm
  rw [if_neg (by omega : ¬ ((k : Int) < 0))]
  omega

theorem pySlice_middle (s1 s2 s3 : List Char) :
    pySlice (s1 ++ (s2 ++ s3)) ((s1.length : Nat) : Int)
      ((s1.length + s2.length : Nat) : Int) = s2 := by
  unfold pySlice
  rw [sliceNorm_ofNat _ _ (by simp), sliceNorm_ofNat _ _ (by simp [List.length_append])]
  exact take_drop_middle s1 s2 s3

/-- Tier 1: a reply of the form `pre ++ "```json" ++ mid ++ "```" ++ post`
with no backtick in `pre` or `mid` yields the stripped text between the fence
markers. -/
theorem extractJson_fenced (pre mid post fallback : String)
    (hpre : ∀ c ∈ pre.data, c ≠ '`') (hmid : ∀ c ∈ mid.data, c ≠ '`') :
    extractJson (pre ++ "```json" ++ mid ++ "```" ++ post) fallback = pyStrip mid := by
  have hdata : (pre ++ "```json" ++ mid ++ "```" ++ post).data =
      pre.data ++ ("```json".data ++ (mid.data ++ ("```".data ++ post.data))) := by
    simp [strData, List.append_assoc]
  have hfence7 : ("```json".data : List Char) = '`' :: "``json".data := rfl
  have hfence3 : ("```".data : List Char) = '`' :: "``".data := rfl
  have hfind1 : findSub (pre ++ "```json" ++ mid ++ "```" ++ post).data
      "```json".data = some pre.data.length := by
    rw [hdata, hfence7]
    exact findSub_append_notin pre.data _ '`' "``json".data hpre
      (startsWith_append_self _ _)
  have hcont1 : strContains (pre ++ "```json" ++ mid ++ "```" ++ post) "```json" = true := by
    unfold strContains containsSub
    rw [hfind1]
    rfl
  have hpf1 : pyFind (pre ++ "```json" ++ mid ++ "```" ++ post).data "```json".data =
      ((pre.data.length : Nat) : Int) := by
    unfold pyFind
    rw [hfind1]
  have hstart_nat : (((pre.data.length : Nat) : Int) + 7).toNat = pre.data.length + 7 := by
    omega
  have hdrop : (pre ++ "```json" ++ mid ++ "```" ++ post).data.drop
      (pre.data.length + 7) = mid.data ++ ("```".data ++ post.data) := by
    rw [hdata, ← List.append_assoc]
    have hlen : (pre.data ++ "```json".data).length = pre.data.length + 7 := by
      simp
    rw [← hlen, List.drop_left]
  have hfind2 : findSub ((pre ++ "```json" ++ mid ++ "```" ++ post).data.drop
      (pre.data.length + 7)) "```".data = some mid.data.length := by
    rw [hdrop, hfence3]
    exact findSub_append_notin mid.data _ '`' "``".data hmid
      (startsWith_append_self _ _)
  have hpff : pyFindFrom (pre ++ "```json" ++ mid ++ "```" ++ post).data "```".data
      (pre.data.length + 7) =
      ((pre.data.length + 7 + mid.data.length : Nat) : Int) := by
    unfold pyFindFrom
    rw [hfind2]
  unfold extractJson
  rw [if_pos hcont1, hpf1, hstart_nat, hpff]
  have hflen : ("```json".data : List Char).length = 7 := rfl
  have hcast1 : ((pre.data.length : Nat) : Int) + 7 =
      (((pre.data ++ "```json".data).length : Nat) : Int) := by
    rw [List.length_append, hflen]
    push_cast
    ring
  have hcast2 : ((pre.data.length + 7 + mid.data.length : Nat) : Int) =
      (((pre.data ++ "```json".data).length + mid.data.length : Nat) : Int) := by
    rw [List.length_append, hflen]
  rw [hcast1, hcast2, hdata, ← List.append_assoc]
  rw [pySlice_middle (pre.data ++ "```json".data) mid.data ("```".data ++ post.data)]

/-- Tier 2: with no fenced block, a reply of the form
`a ++ "{" ++ mid ++ "}" ++ b` with no opening brace in `a` and no closing
brace in `b` yields the substring from the first opening brace through the
last closing brace. -/
theorem extractJson_braces (a mid b fallback : String)
    (hnofence : strContains (a ++ "\x7b" ++ mid ++ "\x7d" ++ b) "```json" = false)
    (ha : ∀ c ∈ a.data, c ≠ '\x7b') (hb2 : ∀ c ∈ b.data, c ≠ '\x7d') :
    extractJson (a ++ "\x7b" ++ mid ++ "\x7d" ++ b) fallback =
      "\x7b" ++ mid ++ "\x7d" := by
  have hob : ("\x7b".data : List Char) = ['\x7b'] := rfl
  have hcb : ("\x7d".data : List Char) = ['\x7d'] := rfl
  have hdata : (a ++ "\x7b" ++ mid ++ "\x7d" ++ b).data =
      a.data ++ ('\x7b' :: (mid.data ++ '\x7d' :: b.data)) := by
    simp [strData, hob, hcb, List.append_assoc]
  have hfindb : findSub (a ++ "\x7b" ++ mid ++ "\x7d" ++ b).data ['\x7b'] =
      some a.data.length := by
    rw [hdata]
    exact findSub_append_notin a.data _ '\x7b' [] ha (by simp [startsWith])
  have hcontb1 : strContains (a ++ "\x7b" ++ mid ++ "\x7d" ++ b) "\x7b" = true := by
    unfold strContains containsSub
    rw [hob, hfindb]
    rfl
  have hcontb2 : strContains (a ++ "\x7b" ++ mid ++ "\x7d" ++ b) "\x7d" = true := by
    unfold strContains containsSub
    rw [hcb]
    have h2 : containsSub ('\x7d' :: b.data) ['\x7d'] = true := by
      simp [containsSub, findSub, startsWith]
    have h3 := containsSub_append_right (a.data ++ ('\x7b' :: mid.data))
      ('\x7d' :: b.data) ['\x7d'] h2
    unfold containsSub at h3
    rw [hdata]
    have hshape : (a.data ++ ('\x7b' :: mid.data)) ++ ('\x7d' :: b.data) =
        a.data ++ ('\x7b' :: (mid.data ++ '\x7d' :: b.data)) := by
      simp [List.append_assoc]
    rw [hshape] at h3
    rw [h3]
  have hrf : rfindSub (a ++ "\x7b" ++ mid ++ "\x7d" ++ b).data ['\x7d'] =
      some ((a.data ++ ('\x7b' :: mid.data)).length + 0) := by
    have h0 := rfindSub_cons_self '\x7d' b.data hb2
    have h1 := rfindSub_append_right (a.data ++ ('\x7b' :: mid.data))
      ('\x7d' :: b.data) ['\x7d'] 0 h0
    rw [hdata]
    have hshape : (a.data ++ ('\x7b' :: mid.data)) ++ ('\x7d' :: b.data) =
        a.data ++ ('\x7b' :: (mid.data ++ '\x7d' :: b.data)) := by
      simp [List.append_assoc]
    rw [hshape] at h1
    exact h1
  have hpfb : pyFind (a ++ "\x7b" ++ mid ++ "\x7d" ++ b).data ['\x7b'] =
      ((a.data.length : Nat) : Int) := by
    unfold pyFind
    rw [hfindb]
  have hprb : pyRfind (a ++ "\x7b" ++ mid ++ "\x7d" ++ b).data ['\x7d'] =
      (((a.data ++ ('\x7b' :: mid.data)).length + 0 : Nat) : Int) := by
    unfold pyRfind
    rw [hrf]
  unfold extractJson
  rw [if_neg (by simp [hnofence]), if_pos (by rw [hcontb1, hcontb2]; rfl)]
  rw [hob, hcb, hpfb, hprb]
  have hend : (((a.data ++ ('\x7b' :: mid.data)).length + 0 : Nat) : Int) + 1 =
      ((a.data.length + ('\x7b' :: (mid.data ++ ['\x7d'])).length : Nat) : Int) := by
    simp
    omega
  rw [hend, hdata]
  have hshape2 : a.data ++ ('\x7b' :: (mid.data ++ '\x7d' :: b.data)) =
      a.data ++ (('\x7b' :: (mid.data ++ ['\x7d'])) ++ b.data) := by
    simp [List.append_assoc]
  rw [hshape2, pySlice_middle a.data ('\x7b' :: (mid.data ++ ['\x7d'])) b.data]
  apply congrArg String.mk
  simp [strData, hob, hcb]

/-- Tier 3: with no fenced block and no brace pair, the deterministic
fallback text is used. -/
theorem extractJson_default (text fallback : String)
    (hnofence : strContains text "```json" = false)
    (hnobrace : strContains text "\x7b" = false ∨ strContains text "\x7d" = false) :
    extractJson text fallback = fallback := by
  unfold extractJson
  rw [if_neg (by simp [hnofence]), if_neg]
  rcases hnobrace with h | h <;> simp [h]

/-- C7: both model-reply parsers route through the single three-tier
extraction `extractJson` (see `generate_search_queries` and
`parseAnalysisText`), and the tiers behave exactly as specified: a reply
containing a ```json fenced block yields the text between the fence markers
(fences ignored, result stripped); otherwise a reply containing both braces
yields the substring from the first opening brace through the last closing
brace; otherwise the caller's deterministic default is used. -/
theorem json_extraction_three_tier :
    (∀ pre mid post fallback : String,
      (∀ c ∈ pre.data, c ≠ '`') → (∀ c ∈ mid.data, c ≠ '`') →
      extractJson (pre ++ "```json" ++ mid ++ "```" ++ post) fallback =
        pyStrip mid) ∧
    (∀ a mid b fallback : String,
      strContains (a ++ "\x7b" ++ mid ++ "\x7d" ++ b) "```json" = false →
      (∀ c ∈ a.data, c ≠ '\x7b') → (∀ c ∈ b.data, c ≠ '\x7d') →
      extractJson (a ++ "\x7b" ++ mid ++ "\x7d" ++ b) fallback =
        "\x7b" ++ mid ++ "\x7d") ∧
    (∀ text fallback : String,
      strContains text "```json" = false →
      (strContains text "\x7b" = false ∨ strContains text "\x7d" = false) →
      extractJson text fallback = fallback) :=
  ⟨extractJson_fenced, extractJson_braces, extractJson_default⟩

/-- Witness: a concrete fenced reply is unwrapped, ignoring the fence
markers. -/
theorem json_extraction_three_tier_witness :
    extractJson ("Here is the JSON:\n" ++ "```json" ++
        "\n\x7b\"english_query\": \"q1\", \"bangla_query\": \"q2\"\x7d\n" ++ "```" ++
        " done") "FALLBACK" =
      pyStrip "\n\x7b\"english_query\": \"q1\", \"bangla_query\": \"q2\"\x7d\n" :=
  json_extraction_three_tier.1 "Here is the JSON:\n"
    "\n\x7b\"english_query\": \"q1\", \"bangla_query\": \"q2\"\x7d\n" " done"
    "FALLBACK" (by decide) (by decide)

/-! ### JSON reading of the constructed fallback query text -/

/-- A character that a JSON string encoder may emit verbatim: not a quote,
not a backslash, not a control character. -/
def goodChar (c : Char) : Bool := c ≠ '"' && c ≠ '\\' && 32 ≤ c.toNat

/-- All characters JSON-verbatim. -/
def goodL (l : List Char) : Bool := l.all goodChar

/-- All characters of a string JSON-verbatim. -/
def goodJsonStr (s : String) : Bool := goodL s.data

theorem strMkEq (l : List Char) (s : String) (h : s.data = l) : (⟨l⟩ : String) = s := by
  cases s
  cases h
  rfl

theorem parseStringBody_good :
    ∀ (s r : List Char), goodL s = true →
      parseStringBody (s ++ '"' :: r) = some (s, r)
  | [], r, _ => by
    rw [List.nil_append, parseStringBody.eq_def]
    simp
  | c :: t, r, h => by
    have hall : goodChar c = true ∧ goodL t = true := by
      simpa [goodL, List.all_cons] using h
    have hc : c ≠ '"' ∧ c ≠ '\\' ∧ 32 ≤ c.toNat := by
      simpa [goodChar, and_assoc] using hall.1
    have hlt : ¬ (c.toNat < 32) := by omega
    have ih := parseStringBody_good t r hall.2
    rw [List.cons_append, parseStringBody.eq_def]
    simp only [if_neg hc.1, if_neg hc.2.1, if_neg hlt, ih]
    rfl

/-- Reading a double-quoted verbatim string as a JSON value. -/
theorem parseJ_value_str (g : Nat) (v r : List Char) (hv : goodL v = true) :
    parseJ (g + 1) ParseMode.value (' ' :: '"' :: (v ++ '"' :: r)) =
      some (JsonVal.str ⟨v⟩, r) := by
  show (parseStringBody (v ++ '"' :: r)).map (fun p => (JsonVal.str ⟨p.1⟩, p.2)) =
    some (JsonVal.str ⟨v⟩, r)
  rw [parseStringBody_good v r hv]
  rfl

theorem parseJ_members_step (fuel : Nat) (acc : List (String × JsonVal))
    (rest : List Char) :
    parseJ (fuel + 1) (ParseMode.members acc) ('"' :: rest) =
      afterKey acc (parseJ fuel ParseMode.value)
        (fun acc2 r => parseJ fuel (ParseMode.members acc2) r)
        (parseStringBody rest) := rfl

theorem parseJ_members_step_space (fuel : Nat) (acc : List (String × JsonVal))
    (rest : List Char) :
    parseJ (fuel + 1) (ParseMode.members acc) (' ' :: '"' :: rest) =
      afterKey acc (parseJ fuel ParseMode.value)
        (fun acc2 r => parseJ fuel (ParseMode.members acc2) r)
        (parseStringBody rest) := rfl

theorem afterKey_colon (acc : List (String × JsonVal))
    (vp : List Char → Option (JsonVal × List Char))
    (loop : List (String × JsonVal) → List Char → Option (JsonVal × List Char))
    (k : List Char) (r2 : List Char) :
    afterKey acc vp loop (some (k, ':' :: r2)) = afterValue acc ⟨k⟩ loop (vp r2) := rfl

theorem afterValue_comma (acc : List (String × JsonVal)) (k : String)
    (loop : List (String × JsonVal) → List Char → Option (JsonVal × List Char))
    (v : JsonVal) (r4 : List Char) :
    afterValue acc k loop (some (v, ',' :: r4)) = loop (acc ++ [(k, v)]) r4 := rfl

theorem afterValue_close (acc : List (String × JsonVal)) (k : String)
    (loop : List (String × JsonVal) → List Char → Option (JsonVal × List Char))
    (v : JsonVal) (r4 : List Char) :
    afterValue acc k loop (some (v, '\x7d' :: r4)) =
      some (JsonVal.obj (acc ++ [(k, v)]), r4) := rfl

/-- Reading the two-member tail of the constructed fallback object. -/
theorem parseJ_members_two (f : Nat) (acc : List (String × JsonVal))
    (k1 v1 k2 v2 : List Char) (hk1 : goodL k1 = true) (hv1 : goodL v1 = true)
    (hk2 : goodL k2 = true) (hv2 : goodL v2 = true) :
    parseJ (f + 3) (ParseMode.members acc)
      ('"' :: (k1 ++ '"' :: ':' :: ' ' :: '"' ::
        (v1 ++ '"' :: ',' :: ' ' :: '"' ::
          (k2 ++ '"' :: ':' :: ' ' :: '"' :: (v2 ++ ['"', '\x7d']))))) =
      some (JsonVal.obj
        (acc ++ [(⟨k1⟩, JsonVal.str ⟨v1⟩), (⟨k2⟩, JsonVal.str ⟨v2⟩)]), []) := by
  rw [show (f + 3) = (f + 2) + 1 from rfl, parseJ_members_step,
    parseStringBody_good k1 _ hk1, afterKey_colon]
  rw [show parseJ (f + 2) ParseMode.value (' ' :: '"' ::
      (v1 ++ '"' :: ',' :: ' ' :: '"' ::
        (k2 ++ '"' :: ':' :: ' ' :: '"' :: (v2 ++ ['"', '\x7d'])))) =
      some (JsonVal.str ⟨v1⟩, ',' :: ' ' :: '"' ::
        (k2 ++ '"' :: ':' :: ' ' :: '"' :: (v2 ++ ['"', '\x7d'])))
    from parseJ_value_str (f + 1) v1 _ hv1]
  rw [afterValue_comma]
  rw [show (f + 2) = (f + 1) + 1 from rfl, parseJ_members_step_space,
    parseStringBody_good k2 _ hk2, afterKey_colon]
  rw [show parseJ (f + 1) ParseMode.value (' ' :: '"' :: (v2 ++ ['"', '\x7d'])) =
      some (JsonVal.str ⟨v2⟩, ['\x7d'])
    from parseJ_value_str f v2 ['\x7d'] hv2]
  rw [show (['\x7d'] : List Char) = '\x7d' :: [] from rfl, afterValue_close]
  simp

/-- Reading the whole constructed fallback object. -/
theorem parseJ_obj_two (f : Nat) (k1 v1 k2 v2 : List Char)
    (hk1 : goodL k1 = true) (hv1 : goodL v1 = true)
    (hk2 : goodL k2 = true) (hv2 : goodL v2 = true) :
    parseJ (f + 4) ParseMode.value
      ('\x7b' :: '"' :: (k1 ++ '"' :: ':' :: ' ' :: '"' ::
        (v1 ++ '"' :: ',' :: ' ' :: '"' ::
          (k2 ++ '"' :: ':' :: ' ' :: '"' :: (v2 ++ ['"', '\x7d']))))) =
      some (JsonVal.obj
        [(⟨k1⟩, JsonVal.str ⟨v1⟩), (⟨k2⟩, JsonVal.str ⟨v2⟩)], []) := by
  show parseJ (f + 3) (ParseMode.members [])
      ('"' :: (k1 ++ '"' :: ':' :: ' ' :: '"' ::
        (v1 ++ '"' :: ',' :: ' ' :: '"' ::
          (k2 ++ '"' :: ':' :: ' ' :: '"' :: (v2 ++ ['"', '\x7d']))))) =
    some (JsonVal.obj
      [(⟨k1⟩, JsonVal.str ⟨v1⟩), (⟨k2⟩, JsonVal.str ⟨v2⟩)], [])
  have h := parseJ_members_two f [] k1 v1 k2 v2 hk1 hv1 hk2 hv2
  rw [List.nil_append] at h
  exact h

theorem goodL_append (a b : List Char) (ha : goodL a = true) (hb : goodL b = true) :
    goodL (a ++ b) = true := by
  unfold goodL at *
  rw [List.all_append, ha, hb]
  rfl

theorem goodL_cons (c : Char) (l : List Char) (hc : goodChar c = true)
    (hl : goodL l = true) : goodL (c :: l) = true := by
  unfold goodL at *
  rw [List.all_cons, hc, hl]
  rfl

/-- `json.loads` on the constructed fallback query JSON, for JSON-verbatim
project name and location. -/
theorem jsonLoads_builtFallback (pn loc : String)
    (hpn : goodJsonStr pn = true) (hloc : goodJsonStr loc = true) :
    jsonLoads (builtFallbackJson pn loc) = Except.ok (JsonVal.obj
      [("english_query", JsonVal.str (pn ++ " " ++ loc ++ " conflict")),
       ("bangla_query", JsonVal.str (pn ++ " " ++ loc ++ " সংঘাত"))]) := by
  have hL1 : ("\x7b\"english_query\": \"" : String).data =
      '\x7b' :: '"' :: ("english_query".data ++ ['"', ':', ' ', '"']) := rfl
  have hL2 : (" conflict\", \"bangla_query\": \"" : String).data =
      " conflict".data ++ ('"' :: ',' :: ' ' :: '"' ::
        ("bangla_query".data ++ ['"', ':', ' ', '"'])) := rfl
  have hL3 : (" সংঘাত\"\x7d" : String).data = " সংঘাত".data ++ ['"', '\x7d'] := rfl
  have hsp : (" " : String).data = [' '] := rfl
  have hdata : (builtFallbackJson pn loc).data =
      '\x7b' :: '"' :: ("english_query".data ++ '"' :: ':' :: ' ' :: '"' ::
        ((pn.data ++ ' ' :: (loc.data ++ " conflict".data)) ++
          '"' :: ',' :: ' ' :: '"' ::
            ("bangla_query".data ++ '"' :: ':' :: ' ' :: '"' ::
              ((pn.data ++ ' ' :: (loc.data ++ " সংঘাত".data)) ++ ['"', '\x7d'])))) := by
    simp only [builtFallbackJson, strData, hL1, hL2, hL3, hsp, List.append_assoc,
      List.cons_append, List.nil_append]
  have hE : goodL (pn.data ++ ' ' :: (loc.data ++ " conflict".data)) = true :=
    goodL_append _ _ hpn (goodL_cons _ _ (by decide)
      (goodL_append _ _ hloc (by decide)))
  have hB : goodL (pn.data ++ ' ' :: (loc.data ++ " সংঘাত".data)) = true :=
    goodL_append _ _ hpn (goodL_cons _ _ (by decide)
      (goodL_append _ _ hloc (by decide)))
  have hlen : 3 ≤ (builtFallbackJson pn loc).data.length := by
    rw [hdata]
    simp
  obtain ⟨f, hf⟩ : ∃ f, (builtFallbackJson pn loc).data.length + 1 = f + 4 :=
    ⟨(builtFallbackJson pn loc).data.length - 3, by omega⟩
  unfold jsonLoads
  rw [hf, hdata]
  rw [parseJ_obj_two f "english_query".data _ "bangla_query".data _
    (by decide) hE (by decide) hB]
  have hk1 : (⟨"english_query".data⟩ : String) = "english_query" := rfl
  have hk2 : (⟨"bangla_query".data⟩ : String) = "bangla_query" := rfl
  have hv1 : (⟨pn.data ++ ' ' :: (loc.data ++ " conflict".data)⟩ : String) =
      pn ++ " " ++ loc ++ " conflict" := by
    apply strMkEq
    simp [strData, hsp, List.append_assoc]
  have hv2 : (⟨pn.data ++ ' ' :: (loc.data ++ " সংঘাত".data)⟩ : String) =
      pn ++ " " ++ loc ++ " সংঘাত" := by
    apply strMkEq
    simp [strData, hsp, List.append_assoc]
  rw [hk1, hk2, hv1, hv2]
  rfl

/-- `json.loads` plus pydantic validation of the constructed fallback query
JSON yields exactly the deterministic fallback pair. -/
theorem parseQueriesText_builtFallback (pn loc : String)
    (hpn : goodJsonStr pn = true) (hloc : goodJsonStr loc = true) :
    parseQueriesText (builtFallbackJson pn loc) =
      Except.ok (fallbackQueries pn loc) := by
  unfold parseQueriesText
  rw [jsonLoads_builtFallback pn loc hpn hloc]
  rfl

/-- C3 counterexample: a model reply carrying well-formed JSON whose fields
are empty strings makes `generate_search_queries` return empty queries, so
the returned pair is not always non-empty. -/
theorem queries_nonempty_counterexample :
    (generate_search_queries
        ⟨some "351", some "Solar Park", some "Pabna", none, none, none⟩
        (Except.ok "\x7b\"english_query\": \"\", \"bangla_query\": \"\"\x7d")).english_query
        = "" ∧
    (generate_search_queries
        ⟨some "351", some "Solar Park", some "Pabna", none, none, none⟩
        (Except.ok "\x7b\"english_query\": \"\", \"bangla_query\": \"\"\x7d")).bangla_query
        = "" :=
  ⟨by decide, by decide⟩

/-- C3 (amended): `generate_search_queries` never raises; when the model call
raises it returns the deterministic fallback pair, whose two fields are
always non-empty; when the reply contains no usable JSON (no fence, no brace
pair) and the project name and location contain no JSON metacharacters
(quote, backslash, control characters), the deterministic fallback pair is
likewise returned.  A reply carrying well-formed JSON is returned as parsed
and may hold empty strings. -/
theorem queries_fallback_behavior (project_data : ProjectData)
    (reply : Except String String) :
    (∀ m, reply = Except.error m →
      generate_search_queries project_data reply =
        fallbackQueries (project_data.project_name.getD "Unknown")
          (project_data.location.getD "Unknown")) ∧
    (∀ pn loc : String, (fallbackQueries pn loc).english_query ≠ "" ∧
      (fallbackQueries pn loc).bangla_query ≠ "") ∧
    (∀ raw, reply = Except.ok raw →
      goodJsonStr (project_data.project_name.getD "Unknown") = true →
      goodJsonStr (project_data.location.getD "Unknown") = true →
      strContains (pyStrip raw) "```json" = false →
      (strContains (pyStrip raw) "\x7b" = false ∨
        strContains (pyStrip raw) "\x7d" = false) →
      generate_search_queries project_data reply =
        fallbackQueries (project_data.project_name.getD "Unknown")
          (project_data.location.getD "Unknown")) := by
  refine ⟨?_, ?_, ?_⟩
  · rintro m rfl
    rfl
  · intro pn loc
    have hne : ∀ (x y tail : String), 0 < tail.data.length →
        x ++ " " ++ y ++ tail ≠ "" := by
      intro x y tail htail h
      have h0 : ("" : String).data = [] := rfl
      have h1 : (" " : String).data = [' '] := rfl
      have hd := congrArg (fun s => s.data.length) h
      simp only [strData, List.length_append, h0, h1, List.length_nil,
        List.length_cons] at hd
      omega
    exact ⟨hne pn loc " conflict" (by decide), hne pn loc " সংঘাত" (by decide)⟩
  · rintro raw rfl hg1 hg2 hnf hnb
    show (match parseQueriesText (extractJson (pyStrip raw)
        (builtFallbackJson (project_data.project_name.getD "Unknown")
          (project_data.location.getD "Unknown"))) with
      | Except.ok q => q
      | Except.error _ =>
        fallbackQueries (project_data.project_name.getD "Unknown")
          (project_data.location.getD "Unknown")) =
      fallbackQueries (project_data.project_name.getD "Unknown")
        (project_data.location.getD "Unknown")
    rw [extractJson_default _ _ hnf hnb,
      parseQueriesText_builtFallback _ _ hg1 hg2]

/-- Witness: a concrete no-JSON reply yields the deterministic fallback
pair. -/
theorem queries_fallback_behavior_witness :
    generate_search_queries
        ⟨some "351", some "Solar Park", some "Pabna", none, none, none⟩
        (Except.ok "I cannot help with that request.") =
      fallbackQueries "Solar Park" "Pabna" :=
  (queries_fallback_behavior
      ⟨some "351", some "Solar Park", some "Pabna", none, none, none⟩
      (Except.ok "I cannot help with that request.")).2.2
    "I cannot help with that request." rfl (by decide) (by decide) (by decide)
    (by decide)

end OA

